import Mathlib

/-!
# Verification of the nightwatcher release-discovery engine

A shallow embedding of the core of the `nightwatcher` repository
(`app/watcher.py`, `app/season_parser.py`, `app/retry.py`,
`app/prowlarr_client.py`) together with proofs and refutations of the
frozen specification claims.

Strings are modelled as `List Char` (`Str`).  Python `str.lower` is
modelled for the character universe actually used by the program
(ASCII plus Cyrillic); Python `\s`, `\w` and `str.strip` likewise.
Dynamic dict-shaped search results are modelled as a structure of
optional fields; a Python "falsy" string (absent key or `""`) is an
`Option Str` that is `none` or `some []`.
-/

/-- Strings as lists of characters. -/
abbrev Str := List Char

/-- Python `str.lower` restricted to the characters the program handles:
ASCII letters and the Cyrillic block (А–Я → а–я, Ё → ё). -/
def pyLower (c : Char) : Char :=
  if 'A' ≤ c ∧ c ≤ 'Z' then Char.ofNat (c.toNat + 32)
  else if 0x410 ≤ c.toNat ∧ c.toNat ≤ 0x42F then Char.ofNat (c.toNat + 0x20)
  else if c.toNat = 0x401 then Char.ofNat 0x451
  else c

/-- `str.lower` on a whole string. -/
def pyLowerStr (s : Str) : Str := s.map pyLower

/-- Python word character (`\w`) for the program's character universe:
ASCII alphanumerics, underscore, and the Cyrillic block. -/
def isWordChar (c : Char) : Bool :=
  c.isAlphanum || c = '_' || (0x400 ≤ c.toNat && c.toNat ≤ 0x4FF)

/-- Characters of the hex alphabet `0123456789abcdefABCDEF`
(the exact set tested character-by-character in `watcher.py`). -/
def isHexChar (c : Char) : Bool :=
  c.isDigit || ('a' ≤ c && c ≤ 'f') || ('A' ≤ c && c ≤ 'F')

/-- Python `str.strip()` (drop whitespace at both ends). -/
def pyStrip (s : Str) : Str :=
  ((s.dropWhile Char.isWhitespace).reverse.dropWhile Char.isWhitespace).reverse

/-- Python substring containment `needle in hay`. -/
def strContains (hay needle : Str) : Bool :=
  needle.isPrefixOf hay ||
    match hay with
    | [] => false
    | _ :: t => strContains t needle

/-- Helper for `pySplit`: accumulates the current word (reversed). -/
def pySplitAux : Str → Str → List Str
  | [], [] => []
  | [], cur => [cur.reverse]
  | c :: rest, cur =>
    if c.isWhitespace then
      match cur with
      | [] => pySplitAux rest []
      | _ => cur.reverse :: pySplitAux rest []
    else pySplitAux rest (c :: cur)

/-- Python `str.split()` with no argument: split on whitespace runs,
dropping empty fields. -/
def pySplit (s : Str) : List Str := pySplitAux s []

/-- Python `sep.join(words)` with a single-space separator. -/
def joinSpace (ws : List Str) : Str := List.intercalate [' '] ws

/-- Python `s.split(sep)` for a non-empty separator (full split list,
empty fields kept). -/
def splitOnAux (sep : Str) : Str → Str → List Str
  | [], cur => [cur.reverse]
  | c :: rest, cur =>
    if sep ≠ [] ∧ sep.isPrefixOf (c :: rest) then
      cur.reverse :: splitOnAux sep ((c :: rest).drop sep.length) []
    else
      splitOnAux sep rest (c :: cur)
termination_by s => s.length
decreasing_by
  · have hs : 0 < sep.length := List.length_pos.mpr (by tauto)
    simp only [List.length_drop, List.length_cons]
    omega
  · simp

def splitOnStr (sep s : Str) : List Str := splitOnAux sep s []

/-- Python `a or b` for optional strings: first truthy operand
(`None` and `""` are falsy). -/
def pyOr (a b : Option Str) : Option Str :=
  match a with
  | some s => if s = [] then b else some s
  | none => b

/-- Truthiness of an optional string. -/
def truthyS (a : Option Str) : Bool :=
  match a with
  | some s => s ≠ []
  | none => false

/-- `int(digits)` for a string of ASCII digits. -/
def digitsToNat (s : Str) : Nat :=
  s.foldl (fun a c => a * 10 + (c.toNat - '0'.toNat)) 0

/-! ## Season parser (`app/season_parser.py`)

The four search patterns of `extract_season_from_title` and the three
substitution patterns of `clean_title_from_season` are embedded as
deterministic matchers.  For each regex the greedy/backtracking
behaviour is deterministic on the constructs used (`\d+`, `\s*`,
a literal alternation followed by `\b`), so each pattern is a function
from a position (previous character + suffix) to an optional match. -/

/-- The result of matching one season pattern at one position:
the captured digit group, the full matched span, and the rest. -/
structure MRes where
  digits : Str
  matched : Str
  rest : Str
deriving DecidableEq, Repr

/-- `(s.takeWhile Char.isWhitespace, s.dropWhile Char.isWhitespace)` — the
greedy `\s*`. -/
def spanWhite (s : Str) : Str × Str :=
  (s.takeWhile Char.isWhitespace, s.dropWhile Char.isWhitespace)

/-- Greedy `\d+` (possibly empty — callers check non-emptiness). -/
def spanDigits (s : Str) : Str × Str :=
  (s.takeWhile Char.isDigit, s.dropWhile Char.isDigit)

/-- Case-insensitive literal: consume `lit` (given lower-case) from the
front of `s`, returning the consumed span (original case) and the rest. -/
def litCI (lit s : Str) : Option (Str × Str) :=
  let seg := s.take lit.length
  if pyLowerStr seg = lit then some (seg, s.drop lit.length) else none

/-- `\b` before a word character: the previous character must be absent
or not a word character. -/
def prevNonWord (prev : Option Char) : Bool :=
  match prev with
  | none => true
  | some c => !isWordChar c

/-- `\b` after a word character: the next character must be absent or
not a word character. -/
def noWordHead (s : Str) : Bool :=
  match s with
  | [] => true
  | c :: _ => !isWordChar c

/-- One branch of the `(?:сезон|season|s)\b` alternation. -/
def tryLit (lit s : Str) : Option (Str × Str) :=
  match litCI lit s with
  | some (w, r) => if noWordHead r then some (w, r) else none
  | none => none

/-- The alternation `(?:сезон|season|s)\b`, tried in regex order. -/
def seasonAlt (s : Str) : Option (Str × Str) :=
  match tryLit ("сезон".data) s with
  | some wr => some wr
  | none =>
    match tryLit ("season".data) s with
    | some wr => some wr
    | none => tryLit ("s".data) s

/-- `s(?:eason)?` — greedy optional group. -/
def sWord (s : Str) : Option (Str × Str) :=
  match litCI ("season".data) s with
  | some wr => some wr
  | none => litCI ("s".data) s

/-- Pattern `\b(\d+)\s*(?:сезон|season|s)\b` at one position. -/
def ep1 (prev : Option Char) (s : Str) : Option MRes :=
  if prevNonWord prev then
    let (ds, r1) := spanDigits s
    if ds = [] then none
    else
      let (sp, r2) := spanWhite r1
      match seasonAlt r2 with
      | some (w, r3) => some ⟨ds, ds ++ sp ++ w, r3⟩
      | none => none
  else none

/-- Pattern `\bs(?:eason)?\s*(\d+)\b` at one position. -/
def ep2 (prev : Option Char) (s : Str) : Option MRes :=
  if prevNonWord prev then
    match sWord s with
    | some (w, r1) =>
      let (sp, r2) := spanWhite r1
      let (ds, r3) := spanDigits r2
      if ds = [] then none
      else if noWordHead r3 then some ⟨ds, w ++ sp ++ ds, r3⟩ else none
    | none => none
  else none

/-- Pattern `\bсезон\s*(\d+)\b` at one position. -/
def ep3 (prev : Option Char) (s : Str) : Option MRes :=
  if prevNonWord prev then
    match litCI ("сезон".data) s with
    | some (w, r1) =>
      let (sp, r2) := spanWhite r1
      let (ds, r3) := spanDigits r2
      if ds = [] then none
      else if noWordHead r3 then some ⟨ds, w ++ sp ++ ds, r3⟩ else none
    | none => none
  else none

/-- Pattern `\b(\d+)\s*сезон\b` at one position. -/
def ep4 (prev : Option Char) (s : Str) : Option MRes :=
  if prevNonWord prev then
    let (ds, r1) := spanDigits s
    if ds = [] then none
    else
      let (sp, r2) := spanWhite r1
      match tryLit ("сезон".data) r2 with
      | some (w, r3) => some ⟨ds, ds ++ sp ++ w, r3⟩
      | none => none
  else none

/-- Substitution pattern `\s*\d+\s*(?:сезон|season|s)\b` (no leading `\b`,
leading greedy whitespace) at one position. -/
def cp1 (_prev : Option Char) (s : Str) : Option MRes :=
  let (sp0, r0) := spanWhite s
  let (ds, r1) := spanDigits r0
  if ds = [] then none
  else
    let (sp, r2) := spanWhite r1
    match seasonAlt r2 with
    | some (w, r3) => some ⟨ds, sp0 ++ ds ++ sp ++ w, r3⟩
    | none => none

/-- Substitution pattern `\bs(?:eason)?\s*\d+\b` — same shape as `ep2`. -/
def cp2 : Option Char → Str → Option MRes := ep2

/-- Substitution pattern `\bсезон\s*\d+\b` — same shape as `ep3`. -/
def cp3 : Option Char → Str → Option MRes := ep3

/-- `re.search`: leftmost match of a pattern, returning the digit group. -/
def reSearch (m : Option Char → Str → Option MRes) :
    Option Char → Str → Option Str
  | prev, [] =>
    match m prev [] with
    | some res => some res.digits
    | none => none
  | prev, c :: rest =>
    match m prev (c :: rest) with
    | some res => some res.digits
    | none => reSearch m (some c) rest

/-- The pattern loop of `extract_season_from_title`: first pattern whose
leftmost match has a number in 1..100; an out-of-range leftmost match
skips the whole pattern. -/
def tryPatterns : List (Option Char → Str → Option MRes) → Str → Option Nat
  | [], _ => none
  | m :: ms, tl =>
    match reSearch m none tl with
    | some ds =>
      if 1 ≤ digitsToNat ds ∧ digitsToNat ds ≤ 100 then some (digitsToNat ds)
      else tryPatterns ms tl
    | none => tryPatterns ms tl

/-- `extract_season_from_title` (season_parser.py lines 7–46). -/
def extract_season_from_title (title : Str) : Option Nat :=
  if title = [] then none
  else tryPatterns [ep1, ep2, ep3, ep4] (pyLowerStr title)

/-- `re.sub(pattern, '', s)` with fuel: scan left to right over the
original string, deleting non-overlapping leftmost matches.  The fuel is
the string length; every step consumes at least one character. -/
def subAllF (m : Option Char → Str → Option MRes) :
    Nat → Option Char → Str → Str
  | 0, _, s => s
  | fuel + 1, prev, s =>
    match m prev s with
    | some res => subAllF m fuel res.matched.getLast? res.rest
    | none =>
      match s with
      | [] => []
      | c :: rest => c :: subAllF m fuel (some c) rest

def subAll (m : Option Char → Str → Option MRes) (s : Str) : Str :=
  subAllF m s.length none s

/-- `clean_title_from_season` (season_parser.py lines 48–76): apply the
three substitution patterns in order, then strip. -/
def clean_title_from_season (title : Str) : Str :=
  if title = [] then title
  else pyStrip (subAll cp3 (subAll cp2 (subAll cp1 title)))

/-! ## Search results (`watcher.py` data model)

A Prowlarr search result is a loosely-typed dict; the fields the core
reads are modelled as optional strings/numbers.  An integer-valued
`imdbId` of, say, `0` behaves exactly like the string `"0"` through the
code paths modelled here (the `!= "0"` guard), so external IMDb tags are
modelled as strings. -/

/-- The `quality` field: sometimes a dict with a `resolution` entry,
sometimes a bare string. -/
inductive QVal where
  | qdict (resolution : Option Str)
  | qstr (s : Str)
deriving DecidableEq, Repr

structure RawResult where
  title : Option Str := none
  imdbId : Option Str := none
  imdb_id : Option Str := none
  quality : Option QVal := none
  size : Option Int := none
  seeders : Option Int := none
  indexer : Option Str := none
  guid : Option Str := none
  downloadUrl : Option Str := none
  link : Option Str := none
  infoHash : Option Str := none
  info_hash : Option Str := none
  magnetUrl : Option Str := none
  magnet : Option Str := none
  magnetLink : Option Str := none
  indexerId : Option Int := none
deriving DecidableEq, Repr

/-- `str(quality.get("resolution", "")).lower()` / `str(quality).lower()`
(watcher.py lines 647–651); the absent field defaults to `{}`. -/
def qualityStrOf (r : RawResult) : Str :=
  match r.quality with
  | none => []
  | some (.qdict res) => pyLowerStr (res.getD [])
  | some (.qstr s) => pyLowerStr s

/-- `release_data["quality"]` (watcher.py line 376): resolution if the
field is a dict, else the raw value. -/
def qualityFieldOf (r : RawResult) : Option Str :=
  match r.quality with
  | none => none
  | some (.qdict res) => res
  | some (.qstr s) => some s

/-! ## Identity matcher (`filter_results_by_imdb_or_title`,
watcher.py lines 532–622) -/

/-- The noise-word set of `filter_results_by_imdb_or_title`. -/
def common_words : List Str :=
  (["the", "a", "an", "и", "в", "на", "с", "для", "of", "to", "in", "on", "at",
    "rip", "web", "bd", "dvd", "hd", "uhd", "4k", "1080p", "720p", "2160p",
    "h264", "h265", "hevc", "x264", "x265", "av1", "raw", "rus", "eng", "multi",
    "season", "seasons", "episode", "episodes", "сезон", "сезоны", "эп", "эпизод",
    "movie", "tv", "ova", "mv", "фильм", "сериал", "webrip", "web-dl", "bdrip",
    "remux", "bluray", "blu-ray", "dvdrip", "uhdtv", "sdr", "hdr", "hdr10",
    "dolby", "vision", "profile", "bit", "10-bit", "8-bit"] : List String).map
    String.data

/-- `normalize_title` (watcher.py lines 570–573): drop noise words and
one-character words, re-join with single spaces. -/
def normalize_title (t : Str) : Str :=
  joinSpace ((pySplit t).filter fun w =>
    !(common_words.contains (pyLowerStr w)) && w.length > 1)

/-- The combined keyword set of an item: union of the (length ≥ 3)
words of the two normalized titles, as a duplicate-free list
(watcher.py lines 575–581; Python uses a `set`, whose cardinality and
membership this list reproduces). -/
def itemKeywords (title original_title : Str) : List Str :=
  let title_lower := pyStrip (pyLowerStr title)
  let original_lower := pyStrip (pyLowerStr original_title)
  let normalized_title := if title_lower ≠ [] then normalize_title title_lower else []
  let normalized_original :=
    if original_lower ≠ [] then normalize_title original_lower else []
  (((pySplit normalized_title).filter fun w => w.length ≥ 3) ++
    ((pySplit normalized_original).filter fun w => w.length ≥ 3)).dedup

/-- The per-result accept test of the filtering loop
(watcher.py lines 590–620). -/
def acceptResult (kws : List Str) (is_short : Bool) (imdb_id : Str)
    (r : RawResult) : Bool :=
  let release_title := pyLowerStr (r.title.getD [])
  let release_imdb := (pyOr r.imdbId r.imdb_id).getD []
  let imdbBranch : Bool :=
    if release_imdb ≠ [] ∧ imdb_id ≠ [] then
      let ris := pyStrip release_imdb
      let iis := pyStrip imdb_id
      ris ≠ [] && ris ≠ ("0".data) && pyLowerStr ris = pyLowerStr iis
    else false
  if imdbBranch then true
  else
    let release_normalized := normalize_title release_title
    let matchCount := kws.countP fun w => strContains release_normalized w
    if is_short then matchCount ≥ kws.length
    else
      let min_matches := max 2 (kws.length / 2)
      let long_word :=
        kws.any fun w => w.length ≥ 5 && strContains release_normalized w
      matchCount ≥ min_matches || long_word

/-- `filter_results_by_imdb_or_title` (watcher.py lines 532–622); the
accumulating loop is a filter preserving input order. -/
def filter_results_by_imdb_or_title (results : List RawResult)
    (imdb_id title original_title : Str) : List RawResult :=
  if results = [] then results
  else
    let all_keywords := itemKeywords title original_title
    if all_keywords = [] then results
    else
      let is_short := all_keywords.length ≤ 2
      results.filter (acceptResult all_keywords is_short imdb_id)

/-! ## Preference filter (`filter_releases_by_preferences`,
watcher.py lines 624–716) -/

/-- The canonical quality-tier synonym table (watcher.py lines 660–665). -/
def quality_variants : List (Str × List Str) :=
  [("1080p".data, (["1080p", "1080", "full hd", "fhd"] : List String).map String.data),
   ("2160p".data, (["2160p", "2160", "4k", "uhd", "ultra hd"] : List String).map String.data),
   ("720p".data, (["720p", "720", "hd"] : List String).map String.data),
   ("480p".data, (["480p", "480", "sd"] : List String).map String.data)]

/-- The quality check for one result (watcher.py lines 654–690):
any requested tier token passes via the synonym table or via direct
containment. -/
def qualityMatchB (preferred_quality qstr titleL : Str) : Bool :=
  let quality_list :=
    ((splitOnStr (",".data) preferred_quality).filter fun q => pyStrip q ≠ []).map
      fun q => pyLowerStr (pyStrip q)
  quality_list.any fun qp =>
    (quality_variants.any fun kv =>
      (strContains (pyLowerStr kv.1) qp || strContains qp (pyLowerStr kv.1)) &&
        kv.2.any fun v => strContains qstr v || strContains titleL v) ||
    (strContains qstr qp || strContains titleL qp)

/-- The audio check for one result (watcher.py lines 693–710). -/
def audioMatchB (preferred_audio titleL : Str) : Bool :=
  let audio_lower := pyLowerStr preferred_audio
  let russian_keywords :=
    (["русск", "russian", "dub", "дубляж", "озвучка", "озвучен", "russkij"] :
      List String).map String.data
  let original_keywords :=
    (["оригинал", "original", "eng", "english", "sub", "субтитр"] :
      List String).map String.data
  if ((["русск", "dub", "дубляж", "озвучка"] : List String).map String.data).any
      (fun kw => strContains audio_lower kw) then
    russian_keywords.any fun kw => strContains titleL kw
  else if ((["оригинал", "original", "eng"] : List String).map String.data).any
      (fun kw => strContains audio_lower kw) then
    (original_keywords.any fun kw => strContains titleL kw) ||
      !(russian_keywords.any fun kw => strContains titleL kw)
  else strContains titleL audio_lower

/-- `filter_releases_by_preferences` (watcher.py lines 624–716).
Inactive (absent or empty) preferences are vacuously satisfied; both
active checks must pass. -/
def filter_releases_by_preferences (results : List RawResult)
    (preferred_quality preferred_audio : Option Str) : List RawResult :=
  if !truthyS preferred_quality && !truthyS preferred_audio then results
  else
    results.filter fun r =>
      let titleL := pyLowerStr (r.title.getD [])
      let qstr := qualityStrOf r
      (match preferred_quality with
       | some q => if q ≠ [] then qualityMatchB q qstr titleL else true
       | none => true) &&
      (match preferred_audio with
       | some a => if a ≠ [] then audioMatchB a titleL else true
       | none => true)

/-! ## Link resolver: info-hash derivation (watcher.py lines 206–254) -/

/-- `s.split(sep)[1]` (the field after the first separator). -/
def afterSplit (sep s : Str) : Str := (splitOnStr sep s).getD 1 []

/-- `s.split(sep)[0]` (the field before the first separator). -/
def beforeSplit (sep s : Str) : Str := (splitOnStr sep s).getD 0 []

/-- `re.search(r'[0-9a-fA-F]{32,40}', s)`: leftmost hex run of length at
least 32, greedily capped at 40 characters. -/
def findHexRun : Str → Option Str
  | [] => none
  | c :: rest =>
    let run := (c :: rest).takeWhile isHexChar
    if run.length ≥ 32 then some (run.take 40) else findHexRun rest

/-- The info-hash derivation chain for one raw result
(watcher.py lines 206–254).  `none` means the release is skipped
(`continue`): no guid and no hash field at all. -/
def deriveInfoHash (r : RawResult) : Option Str :=
  let guid := pyOr (pyOr r.guid r.downloadUrl) r.link
  let tracker_name := pyLowerStr (r.indexer.getD [])
  let mu := r.magnetUrl.getD []
  let ih0 : Option Str :=
    pyOr (pyOr r.infoHash r.info_hash)
      (if strContains mu ("btih:".data) then
         some (beforeSplit ("&".data) (afterSplit ("btih:".data) mu))
       else none)
  let ih1 : Option Str :=
    if !truthyS ih0 && truthyS guid then
      let g := guid.getD []
      if !(("http".data).isPrefixOf g) && g.length = 40 then
        if g.all isHexChar then some g else ih0
      else if !(("http".data).isPrefixOf g) && g.length ≥ 32 then
        match findHexRun g with
        | some h => some h
        | none => ih0
      else ih0
    else ih0
  if truthyS ih1 then ih1
  else
    match guid with
    | some g =>
      if g ≠ [] ∧ ¬(("http".data).isPrefixOf g = true) then some (g.take 40)
      else if g ≠ [] ∧ strContains g ("id=".data) = true then
        some ((tracker_name ++ '_' ::
          beforeSplit ("#".data) (beforeSplit ("&".data) (afterSplit ("id=".data) g))).take 40)
      else if g ≠ [] then some (g.take 40)
      else none
    | none => none

/-! ## Link resolver: local magnet derivation (watcher.py lines 309–345)

The two asynchronous fallbacks (the Prowlarr download-link round trip and
the torrent-file-to-magnet conversion, lines 347–372) are network calls
and are outside this pure model; the claim under verification concerns
only the synthesis-from-info-hash step, which runs before them. -/

/-- A character allowed inside a magnet URI by `[^\s<>"]`. -/
def magnetBodyChar (c : Char) : Bool :=
  !(c.isWhitespace || c = '<' || c = '>' || c = '"')

/-- `re.search(r'magnet:\?[^\s<>"]+', s, re.IGNORECASE)`. -/
def reFindMagnet : Str → Option Str
  | [] => none
  | c :: rest =>
    if pyLowerStr ((c :: rest).take 8) = ("magnet:?".data) then
      let body := ((c :: rest).drop 8).takeWhile magnetBodyChar
      if body ≠ [] then some ((c :: rest).take 8 ++ body) else reFindMagnet rest
    else reFindMagnet rest

/-- Lines 328–345: synthesize a magnet from the derived info-hash only
when it is not URL-shaped and is a hex string of length 40 (standard) or
at least 32. -/
def synthFromHash (h : Str) : Option Str :=
  if ("http".data).isPrefixOf h then none
  else if h.length = 40 && h.all isHexChar then
    some (("magnet:?xt=urn:btih:".data) ++ h)
  else if h.length ≥ 32 && h.all isHexChar then
    some (("magnet:?xt=urn:btih:".data) ++ h)
  else none

/-- Lines 309–345: magnet from explicit fields (with embedded-magnet
extraction), falling back to synthesis from the info-hash.  `mfield` is
`r.get("magnetUrl") or r.get("magnet") or r.get("magnetLink")`. -/
def magnetFieldPart (mfield : Option Str) : Option Str :=
  match mfield with
  | none => none
  | some m =>
    if ("magnet:".data).isPrefixOf m then some m
    else if strContains (pyLowerStr m) ("magnet:".data) then reFindMagnet m
    else some m

def magnetStep (mfield : Option Str) (ih : Option Str) : Option Str :=
  let m1 := magnetFieldPart mfield
  if truthyS m1 then m1
  else if truthyS ih then synthFromHash (ih.getD [])
  else m1

/-! ## Release store (watcher.py lines 385–421)

The `torrent_releases` table is modelled as a list of records in
insertion order; the `SELECT`/`UPDATE`/`INSERT` statements become a
find, an update of the (unique) matching row, and an append. -/

structure ReleaseRec where
  imdb_id : Str
  title : Option Str
  info_hash : Str
  quality : Option Str
  size : Option Int
  seeders : Option Int
  tracker : Option Str
  published_at : Int
  last_update : Int
deriving DecidableEq, Repr

def relMatches (imdb hash : Str) (rec : ReleaseRec) : Bool :=
  rec.imdb_id = imdb && rec.info_hash = hash

/-- `SELECT id FROM torrent_releases WHERE imdb_id = … AND info_hash = …`. -/
def findRelease (rows : List ReleaseRec) (imdb hash : Str) : Option ReleaseRec :=
  rows.find? (relMatches imdb hash)

/-- `UPDATE torrent_releases SET last_update = :now WHERE id = :id` for the
row found by `findRelease`. -/
def touchFirst : List ReleaseRec → Str → Str → Int → List ReleaseRec
  | [], _, _, _ => []
  | rec :: rs, imdb, hash, now =>
    if relMatches imdb hash rec then { rec with last_update := now } :: rs
    else rec :: touchFirst rs imdb hash now

/-- One release candidate after info-hash derivation (`release_data` plus
the derived key; `none` hash means the release was skipped). -/
structure Cand where
  hash : Option Str
  title : Option Str
  quality : Option Str
  size : Option Int
  seeders : Option Int
  tracker : Option Str
deriving DecidableEq, Repr

/-- The inserted row (watcher.py lines 405–420): first-seen and
last-update both set to now. -/
def mkRec (imdb hash : Str) (c : Cand) (now : Int) : ReleaseRec :=
  ⟨imdb, c.title, hash, c.quality, c.size, c.seeders, c.tracker, now, now⟩

/-- The store interaction for one candidate: touch if present
(`is_new = false`), append if absent (`is_new = true`). -/
def recordIfNew (rows : List ReleaseRec) (imdb hash : Str) (c : Cand)
    (now : Int) : List ReleaseRec × Bool :=
  match findRelease rows imdb hash with
  | some _ => (touchFirst rows imdb hash now, false)
  | none => (rows ++ [mkRec imdb hash c now], true)

/-- The output of the candidate loop: final store, the candidates for
which a notification task was created (in order), and `found_count`. -/
structure BatchOut where
  rows : List ReleaseRec
  notified : List Cand
  found : Nat
deriving DecidableEq, Repr

/-- The candidate loop of `process_item` (watcher.py lines 206–436),
after info-hash derivation: skip keyless candidates, touch duplicates,
insert new rows, notify (when allowed) and count only new rows.
Each loop iteration reads the clock once; the clock is modelled as
advancing by one per iteration. -/
def processCandidates (notify : Bool) (imdb : Str) :
    List ReleaseRec → List Cand → Int → BatchOut
  | rows, [], _ => ⟨rows, [], 0⟩
  | rows, c :: cs, now =>
    match c.hash with
    | none => processCandidates notify imdb rows cs (now + 1)
    | some h =>
      match recordIfNew rows imdb h c now with
      | (rows1, isNew) =>
        let rest := processCandidates notify imdb rows1 cs (now + 1)
        if isNew then
          ⟨rest.rows, (if notify then c :: rest.notified else rest.notified),
            rest.found + 1⟩
        else ⟨rest.rows, rest.notified, rest.found⟩

/-- `SELECT COUNT(*) FROM torrent_releases WHERE imdb_id = :imdb`. -/
def countFor (rows : List ReleaseRec) (imdb : Str) : Nat :=
  (rows.filter fun rec => rec.imdb_id = imdb).length

/-- The minimum-release-count gate (watcher.py lines 178–204). -/
def shouldNotifyOf (min_releases_count : Option Int) (existing numFiltered : Nat) :
    Bool :=
  match min_releases_count with
  | none => true
  | some t =>
    if t ≠ 0 ∧ 0 < t then
      if (existing : Int) + numFiltered < t then false else true
    else true

/-- Gate computation followed by the candidate loop
(watcher.py lines 178–436). -/
def runBatch (min_releases_count : Option Int) (imdb : Str)
    (rows : List ReleaseRec) (cands : List Cand) (t0 : Int) : Bool × BatchOut :=
  let existing := countFor rows imdb
  let sn := shouldNotifyOf min_releases_count existing cands.length
  (sn, processCandidates sn imdb rows cands t0)

/-! ## Search phase and per-item processing (watcher.py lines 73–204, 438–449)

The two Prowlarr calls are modelled as a deterministic environment:
`imdbSearch` is the outcome of `search_by_imdb(imdb_id)` and
`querySearch q` the outcome of `search_by_query(q)` (deterministic, so
the retry of the keyword search inside the exception handler returns
the same outcome as the first attempt). -/

structure SearchEnv where
  imdbSearch : Except Unit (List RawResult)
  querySearch : Str → Except Unit (List RawResult)

/-- Line 147: does any id-search result carry the matching external id? -/
def hasValidImdbMatch (rs : List RawResult) (imdb_id : Str) : Bool :=
  rs.any fun r =>
    pyStrip (pyLowerStr (r.imdbId.getD [])) = pyStrip (pyLowerStr imdb_id)

/-- Lines 138–170: id-based search with keyword fallback; `none` is the
second-level failure (`return 0` at line 170).  When the keyword search
inside the `try` raises, the handler retries it (line 167) and, the
environment being deterministic, obtains the same failure. -/
def searchPhase (env : SearchEnv) (imdb_id q : Str) : Option (List RawResult) :=
  match env.imdbSearch with
  | .ok irs =>
    if irs ≠ [] then
      if hasValidImdbMatch irs imdb_id then some irs
      else
        match env.querySearch q with
        | .ok qrs => some qrs
        | .error _ => none
    else
      match env.querySearch q with
      | .ok qrs => some qrs
      | .error _ => none
  | .error _ =>
    match env.querySearch q with
    | .ok qrs => some qrs
    | .error _ => none

structure ItemInput where
  imdb_id : Str
  title : Str
  original_title : Str
  item_type : Str
  year : Str
  target_season : Option Nat
  preferred_quality : Option Str
  preferred_audio : Option Str
  min_releases_count : Option Int
deriving Repr

/-- `f"S{n:02d}"`'s digits: zero-padded to two places. -/
def pad2 (n : Nat) : Str :=
  let d := Nat.toDigits 10 n
  if d.length < 2 then '0' :: d else d

/-- Line 113: original title preferred, then title, then imdb id. -/
def searchQueryBase (it : ItemInput) : Str :=
  if it.original_title ≠ [] then it.original_title
  else if it.title ≠ [] then it.title
  else it.imdb_id

/-- Lines 131–135: season number parsed out of the titles when no target
season is set. -/
def seasonFallbackQuery (sq : Str) (it : ItemInput) : Str :=
  match (extract_season_from_title it.title).orElse
      (fun _ => extract_season_from_title it.original_title) with
  | some m => sq ++ (" S".data) ++ pad2 m
  | none => sq

/-- Lines 117–135: append year and (for series) a season token. -/
def buildSearchQuery (it : ItemInput) : Str :=
  let sq0 := searchQueryBase it
  let sq1 := if it.year ≠ [] then sq0 ++ ' ' :: it.year else sq0
  if it.item_type = ("tv".data) then
    match it.target_season with
    | some n => if n ≠ 0 then sq1 ++ (" S".data) ++ pad2 n else seasonFallbackQuery sq1 it
    | none => seasonFallbackQuery sq1 it
  else sq1

/-- Everything of one release candidate that the loop persists or counts. -/
def toCand (r : RawResult) : Cand :=
  ⟨deriveInfoHash r, r.title, qualityFieldOf r, r.size, r.seeders, r.indexer⟩

/-- The observable outcome of `process_item` for one item: returned
found-count, whether `last_checked` was updated, the final store, and
the notified candidates. -/
structure ItemOutcome where
  found : Nat
  lastChecked : Bool
  rows : List ReleaseRec
  notified : List Cand
deriving Repr

/-- `process_item` (watcher.py lines 73–449): query construction, search
with fallback, identity and preference filtering, the min-count gate,
the candidate loop, and the final `last_checked` update.  The early
returns at lines 114–115 and 170 skip the `last_checked` update
(lines 438–447); the database itself is assumed not to fail. -/
def process_item (it : ItemInput) (env : SearchEnv) (rows : List ReleaseRec)
    (t0 : Int) : ItemOutcome :=
  if searchQueryBase it = [] then ⟨0, false, rows, []⟩
  else
    match searchPhase env it.imdb_id (buildSearchQuery it) with
    | none => ⟨0, false, rows, []⟩
    | some results =>
      let idFiltered :=
        filter_results_by_imdb_or_title results it.imdb_id it.title it.original_title
      let filtered :=
        filter_releases_by_preferences idFiltered it.preferred_quality it.preferred_audio
      let out :=
        (runBatch it.min_releases_count it.imdb_id rows (filtered.map toCand) t0).2
      ⟨out.found, true, out.rows, out.notified⟩

/-! ## Circuit breaker (`app/retry.py` lines 15–83)

`call` and `call_async` are the same state transformer; one call is
modelled by the current clock reading and the outcome the wrapped
function would produce if invoked.  A `rejected` result is the
"Circuit breaker is OPEN" exception raised without invoking the wrapped
function (the state is returned unchanged and the outcome argument is
not consulted). -/

inductive CBState where
  | closed
  | opened
  | halfOpen
deriving DecidableEq, Repr

structure CB where
  failure_threshold : Nat
  recovery_timeout : Int
  failure_count : Nat
  last_failure_time : Option Int
  state : CBState
deriving DecidableEq, Repr

/-- `CircuitBreaker.__init__`. -/
def CB.init (thr : Nat) (timeout : Int) : CB := ⟨thr, timeout, 0, none, .closed⟩

inductive CallOutcome where
  | rejected
  | succeeded
  | failed
deriving DecidableEq, Repr

/-- One `CircuitBreaker.call` (retry.py lines 37–59): `now` is the value
of `time.time()`, `ok` whether the wrapped function succeeds. -/
def cbCall (cb : CB) (now : Int) (ok : Bool) : CallOutcome × CB :=
  let gate : Option CB :=
    if cb.state = .opened then
      if now - (cb.last_failure_time.getD 0) < cb.recovery_timeout then none
      else some { cb with state := .halfOpen }
    else some cb
  match gate with
  | none => (.rejected, cb)
  | some cb1 =>
    if ok then
      if cb1.state = .halfOpen then
        (.succeeded, { cb1 with state := .closed, failure_count := 0 })
      else (.succeeded, cb1)
    else
      let fc := cb1.failure_count + 1
      let cb2 := { cb1 with failure_count := fc, last_failure_time := some now }
      if fc ≥ cb1.failure_threshold then (.failed, { cb2 with state := .opened })
      else (.failed, cb2)

/-! ## Prowlarr client (`app/prowlarr_client.py` lines 43–57)

The HTTP transport is a parameter; the pair's second component counts
the HTTP requests issued by the call. -/

inductive TransportResult where
  | success (body : List RawResult)
  | failure (msg : Str)

/-- `search_by_query`: empty query short-circuits to `[]` with no
request; otherwise one request, with transport failures re-raised as
`Exception("Prowlarr API error: …")`. -/
def search_by_query (transport : Str → TransportResult) (query : Str) :
    Except Str (List RawResult) × Nat :=
  if query = [] then (.ok [], 0)
  else
    match transport query with
    | .success rs => (.ok rs, 1)
    | .failure m => (.error (("Prowlarr API error: ".data) ++ m), 1)

/-! ## Specification-side definitions

Definitions following the wording of the claims (used only to compare
with the source-derived definitions above). -/

/-- Claim C2's acceptance predicate, following the claim's wording: an
IMDb-tag match (non-empty, not "0", case-insensitively equal after
trimming), or the keyword rule — all keywords for short queries
(`|K| ≤ 2`), else half-or-two matches or one long keyword. -/
def c2SpecAccept (kws : List Str) (imdb_id : Str) (r : RawResult) : Bool :=
  let tag := pyStrip ((pyOr r.imdbId r.imdb_id).getD [])
  let imdbOK : Bool :=
    tag ≠ [] && tag ≠ ("0".data) && pyLowerStr tag = pyLowerStr (pyStrip imdb_id)
  let rn := normalize_title (pyLowerStr (r.title.getD []))
  let matchCount := kws.countP fun w => strContains rn w
  imdbOK ||
    (if kws.length ≤ 2 then matchCount = kws.length
     else
       (matchCount ≥ max 2 (kws.length / 2) ||
         kws.any fun w => w.length ≥ 5 && strContains rn w))

/-- `<N> сезон` / `<N> season` at the head of a suffix (claim C6's
number-first marker shapes, with an optional whitespace delimiter,
case-insensitive). -/
def numThenWordAt (words : List Str) (s : Str) : Option Nat :=
  let (ds, r1) := spanDigits s
  if ds = [] then none
  else
    let r2 := (spanWhite r1).2
    if words.any fun w => w.isPrefixOf (pyLowerStr r2) then some (digitsToNat ds)
    else none

/-- `s<N>` / `season <N>` / `сезон <N>` at the head of a suffix (claim
C6's word-first marker shapes). -/
def wordThenNumAt (words : List Str) (s : Str) : Option Nat :=
  words.findSome? fun w =>
    if w.isPrefixOf (pyLowerStr s) then
      let r1 := s.drop w.length
      let ds := (spanDigits ((spanWhite r1).2)).1
      if ds ≠ [] then some (digitsToNat ds) else none
    else none

/-- Every season number for which one of claim C6's five supported
marker shapes occurs somewhere in the title. -/
def claimMarkerNums (t : Str) : List Nat :=
  (t.tails.filterMap fun s => numThenWordAt [("сезон".data), ("season".data)] s) ++
    (t.tails.filterMap fun s =>
      wordThenNumAt [("s".data), ("season".data), ("сезон".data)] s)

def seasonWordsA : List Str := [("сезон".data), ("season".data), ("s".data)]

def seasonWordsB : List Str := [("s".data), ("season".data), ("сезон".data)]

/-- A season marker for `n` occurs in `t`: a digit run valued `n`,
an optional whitespace run, and a season word — in either order
(this extends claim C6's marker list by the number-first `<N> s` shape
the code also recognizes). -/
def extMarker (t : Str) (n : Nat) : Prop :=
  (∃ pre d sp w post, t = pre ++ d ++ sp ++ w ++ post ∧ d ≠ [] ∧
    (∀ c ∈ d, c.isDigit) ∧ digitsToNat d = n ∧
    (∀ c ∈ sp, c.isWhitespace) ∧ pyLowerStr w ∈ seasonWordsA) ∨
  (∃ pre w sp d post, t = pre ++ w ++ sp ++ d ++ post ∧ d ≠ [] ∧
    (∀ c ∈ d, c.isDigit) ∧ digitsToNat d = n ∧
    (∀ c ∈ sp, c.isWhitespace) ∧ pyLowerStr w ∈ seasonWordsB)

/-! ## Release-store lemmas -/

theorem relMatches_mkRec (i h : Str) (c : Cand) (now : Int) :
    relMatches i h (mkRec i h c now) = true := by
  simp [relMatches, mkRec]

theorem relMatches_touch (i h : Str) (rec : ReleaseRec) (now : Int) :
    relMatches i h { rec with last_update := now } = relMatches i h rec := rfl

theorem findRelease_append (rows1 rows2 : List ReleaseRec) (i h : Str) :
    findRelease (rows1 ++ rows2) i h =
      (findRelease rows1 i h).or (findRelease rows2 i h) := by
  simp [findRelease, List.find?_append]

theorem recordIfNew_fresh {rows : List ReleaseRec} {i h : Str} {c : Cand}
    {now : Int} (hf : findRelease rows i h = none) :
    recordIfNew rows i h c now = (rows ++ [mkRec i h c now], true) := by
  simp [recordIfNew, hf]

theorem recordIfNew_isNew_iff (rows : List ReleaseRec) (i h : Str) (c : Cand)
    (now : Int) :
    (recordIfNew rows i h c now).2 = true ↔ findRelease rows i h = none := by
  unfold recordIfNew
  cases hf : findRelease rows i h <;> simp

theorem findRelease_touchFirst (rows : List ReleaseRec) (i h i' h' : Str)
    (now : Int) :
    (findRelease (touchFirst rows i h now) i' h').isSome =
      (findRelease rows i' h').isSome := by
  induction rows with
  | nil => rfl
  | cons rec rs ih =>
    by_cases hm : relMatches i h rec
    · simp [touchFirst, hm, findRelease, List.find?_cons, relMatches_touch]
      by_cases hm' : relMatches i' h' rec <;> simp [hm']
    · simp only [touchFirst, hm, if_neg, Bool.false_eq_true, not_false_iff]
      simp only [findRelease, List.find?_cons] at ih ⊢
      by_cases hm' : relMatches i' h' rec <;> simp [hm', ih]

theorem countFor_touchFirst (rows : List ReleaseRec) (i h i' : Str) (now : Int) :
    countFor (touchFirst rows i h now) i' = countFor rows i' := by
  induction rows with
  | nil => rfl
  | cons rec rs ih =>
    by_cases hm : relMatches i h rec
    · have hid : ({ rec with last_update := now } : ReleaseRec).imdb_id = rec.imdb_id := rfl
      simp only [touchFirst, hm, if_pos, countFor, List.filter_cons, hid]
      by_cases hi : rec.imdb_id = i' <;> simp [hi]
    · simp only [touchFirst, hm, if_neg, Bool.false_eq_true, not_false_iff]
      simp only [countFor, List.filter_cons] at ih ⊢
      by_cases hi : rec.imdb_id = i' <;> simp [hi, ih]

theorem countFor_append_mkRec (rows : List ReleaseRec) (i h : Str) (c : Cand)
    (now : Int) :
    countFor (rows ++ [mkRec i h c now]) i = countFor rows i + 1 := by
  simp [countFor, List.filter_append, mkRec, List.filter_cons]

theorem touchFirst_append (rows l : List ReleaseRec) (i h : Str) (now : Int) :
    touchFirst (rows ++ l) i h now =
      if (findRelease rows i h).isSome then touchFirst rows i h now ++ l
      else rows ++ touchFirst l i h now := by
  induction rows with
  | nil => simp [touchFirst, findRelease]
  | cons rec rs ih =>
    by_cases hm : relMatches i h rec
    · simp [touchFirst, hm, findRelease, List.find?_cons]
    · simp only [List.cons_append, touchFirst, hm, if_neg, Bool.false_eq_true,
        not_false_iff, findRelease, List.find?_cons]
      simp only [findRelease] at ih
      simp only [List.append_eq] at ih ⊢
      rw [ih]
      by_cases hs : (List.find? (relMatches i h) rs).isSome <;> simp [hm, hs]

theorem findRelease_isSome_append (rows l : List ReleaseRec) (i h : Str)
    (hs : (findRelease rows i h).isSome) :
    (findRelease (rows ++ l) i h).isSome := by
  rw [findRelease_append]
  cases hf : findRelease rows i h with
  | none => rw [hf] at hs; simp at hs
  | some rec => simp [Option.or]

theorem processCandidates_preserves_key (notify : Bool) (i : Str) :
    ∀ (cands : List Cand) (rows : List ReleaseRec) (t0 : Int) (i' h' : Str),
      (findRelease rows i' h').isSome →
      (findRelease (processCandidates notify i rows cands t0).rows i' h').isSome := by
  intro cands
  induction cands with
  | nil => intro rows t0 i' h' hs; exact hs
  | cons c cs ih =>
    intro rows t0 i' h' hs
    cases hc : c.hash with
    | none => simpa [processCandidates, hc] using ih rows (t0 + 1) i' h' hs
    | some h =>
      simp only [processCandidates, hc]
      cases hf : findRelease rows i h with
      | some rec =>
        simp only [recordIfNew, hf]
        have hs1 : (findRelease (touchFirst rows i h t0) i' h').isSome := by
          rw [findRelease_touchFirst]; exact hs
        simpa using ih (touchFirst rows i h t0) (t0 + 1) i' h' hs1
      | none =>
        simp only [recordIfNew, hf]
        have hs1 : (findRelease (rows ++ [mkRec i h c t0]) i' h').isSome :=
          findRelease_isSome_append _ _ _ _ hs
        have := ih (rows ++ [mkRec i h c t0]) (t0 + 1) i' h' hs1
        by_cases hn : notify <;> simp [hn] at this ⊢ <;> exact this

theorem processCandidates_fresh_spec (notify : Bool) (i : Str) :
    ∀ (cands : List Cand) (rows : List ReleaseRec) (t0 : Int),
      (∀ c ∈ cands, c.hash.isSome) →
      (∀ c ∈ cands, findRelease rows i (c.hash.getD []) = none) →
      (cands.map fun c => c.hash.getD []).Nodup →
      (processCandidates notify i rows cands t0).notified =
          (if notify then cands else []) ∧
        (processCandidates notify i rows cands t0).found = cands.length ∧
        countFor (processCandidates notify i rows cands t0).rows i =
          countFor rows i + cands.length ∧
        ∀ c ∈ cands,
          (findRelease (processCandidates notify i rows cands t0).rows i
            (c.hash.getD [])).isSome := by
  intro cands
  induction cands with
  | nil =>
    intro rows t0 _ _ _
    refine ⟨by cases notify <;> rfl, rfl, rfl, by intro c hc; cases hc⟩
  | cons c cs ih =>
    intro rows t0 hkeys hfresh hnodup
    obtain ⟨h, hc⟩ := Option.isSome_iff_exists.mp (hkeys c (by simp))
    have hgd : c.hash.getD [] = h := by rw [hc]; rfl
    have hf : findRelease rows i h = none := by
      have := hfresh c (by simp)
      rwa [hgd] at this
    have hne : ∀ c' ∈ cs, c'.hash.getD [] ≠ h := by
      intro c' hc2 heq
      simp only [List.map_cons, List.nodup_cons] at hnodup
      apply hnodup.1
      rw [hgd, ← heq]
      exact List.mem_map_of_mem _ hc2
    have hfresh' : ∀ c' ∈ cs,
        findRelease (rows ++ [mkRec i h c t0]) i (c'.hash.getD []) = none := by
      intro c' hc2
      rw [findRelease_append]
      have h1 : findRelease rows i (c'.hash.getD []) = none :=
        hfresh c' (by simp [hc2])
      have hne2 : h ≠ c'.hash.getD [] := fun e => hne c' hc2 e.symm
      have h2 : findRelease [mkRec i h c t0] i (c'.hash.getD []) = none := by
        simp [findRelease, List.find?_cons, relMatches, mkRec, hne2]
      rw [h1, h2]; rfl
    have hnodup' : (cs.map fun x => x.hash.getD []).Nodup := by
      simp only [List.map_cons, List.nodup_cons] at hnodup
      exact hnodup.2
    have hkeys' : ∀ c' ∈ cs, c'.hash.isSome := fun c' hc2 => hkeys c' (by simp [hc2])
    obtain ⟨ih1, ih2, ih3, ih4⟩ :=
      ih (rows ++ [mkRec i h c t0]) (t0 + 1) hkeys' hfresh' hnodup'
    have hstep : processCandidates notify i rows (c :: cs) t0 =
        ⟨(processCandidates notify i (rows ++ [mkRec i h c t0]) cs (t0 + 1)).rows,
          (if notify then
            c :: (processCandidates notify i (rows ++ [mkRec i h c t0]) cs (t0 + 1)).notified
          else (processCandidates notify i (rows ++ [mkRec i h c t0]) cs (t0 + 1)).notified),
          (processCandidates notify i (rows ++ [mkRec i h c t0]) cs (t0 + 1)).found + 1⟩ := by
      simp [processCandidates, hc, recordIfNew, hf]
    refine ⟨?_, ?_, ?_, ?_⟩
    · rw [hstep]
      cases hn : notify <;> rw [hn] at ih1 <;> simp [ih1]
    · rw [hstep]; simpa using ih2
    · rw [hstep]
      show countFor (processCandidates notify i (rows ++ [mkRec i h c t0]) cs (t0 + 1)).rows i
          = countFor rows i + (c :: cs).length
      rw [ih3, countFor_append_mkRec]
      simp [Nat.add_assoc, Nat.add_comm 1 cs.length]
    · intro c' hc2
      rw [hstep]
      show (findRelease
        (processCandidates notify i (rows ++ [mkRec i h c t0]) cs (t0 + 1)).rows i
        (c'.hash.getD [])).isSome
      rcases List.mem_cons.mp hc2 with h1 | h1
      · rw [h1, hgd]
        apply processCandidates_preserves_key
        have hpresent : findRelease (rows ++ [mkRec i h c t0]) i h =
            some (mkRec i h c t0) := by
          rw [findRelease_append, hf]
          simp [findRelease, List.find?_cons, relMatches_mkRec, Option.or]
        rw [hpresent]; rfl
      · exact ih4 c' h1

/-! ## Claim C4: release-store dedup and frame effect -/

/-- C4.  Re-observing an existing `(imdb_id, info_hash)` pair changes only
that record's last-update timestamp: title, quality, size, seeders,
tracker and the first-seen timestamp keep the first observation's
values, no second record is inserted, `is_new` is true only on the
first insertion of a key, and a duplicate candidate in the loop
produces no notification and no found-count increment. -/
theorem c4_dedup_frame :
    (∀ (rows : List ReleaseRec) (i h : Str) (c : Cand) (now : Int),
      (recordIfNew rows i h c now).2 = true ↔ findRelease rows i h = none) ∧
    (∀ (rows : List ReleaseRec) (i h : Str) (c1 c2 : Cand) (t1 t2 : Int),
      findRelease rows i h = none →
      recordIfNew (recordIfNew rows i h c1 t1).1 i h c2 t2 =
        (rows ++
          [⟨i, c1.title, h, c1.quality, c1.size, c1.seeders, c1.tracker, t1, t2⟩],
          false)) ∧
    (∀ (notify : Bool) (i : Str) (rows : List ReleaseRec) (c : Cand) (h : Str)
        (cs : List Cand) (t0 : Int),
      c.hash = some h → (findRelease rows i h).isSome →
      processCandidates notify i rows (c :: cs) t0 =
        processCandidates notify i (touchFirst rows i h t0) cs (t0 + 1)) := by
  refine ⟨recordIfNew_isNew_iff, ?_, ?_⟩
  · intro rows i h c1 c2 t1 t2 hf
    rw [recordIfNew_fresh hf]
    have hpresent : findRelease (rows ++ [mkRec i h c1 t1]) i h =
        some (mkRec i h c1 t1) := by
      rw [findRelease_append, hf]
      simp [findRelease, List.find?_cons, relMatches_mkRec, Option.or]
    simp only [recordIfNew, hpresent]
    have ht : touchFirst [mkRec i h c1 t1] i h t2 =
        [⟨i, c1.title, h, c1.quality, c1.size, c1.seeders, c1.tracker, t1, t2⟩] := by
      simp only [touchFirst, relMatches_mkRec, if_pos]
      rfl
    rw [touchFirst_append, hf]
    simp [ht]
  · intro notify i rows c h cs t0 hc hsome
    obtain ⟨rec, hrec⟩ := Option.isSome_iff_exists.mp hsome
    simp [processCandidates, hc, recordIfNew, hrec]

def c4wCand1 : Cand := ⟨some ("a1".data), some ("T1".data), none, none, none, none⟩

def c4wCand2 : Cand := ⟨some ("a1".data), some ("T2".data), none, none, none, none⟩

theorem c4_witness :
    recordIfNew (recordIfNew [] ("tt0903747".data) ("a1".data) c4wCand1 5).1
        ("tt0903747".data) ("a1".data) c4wCand2 9 =
      ([⟨"tt0903747".data, some ("T1".data), "a1".data, none, none, none, none, 5, 9⟩],
        false) :=
  c4_dedup_frame.2.1 [] ("tt0903747".data) ("a1".data) c4wCand1 c4wCand2 5 9 rfl

/-! ## Claim C3: minimum-release-count gate -/

/-- C3.  With a positive threshold `T`, notifications are suppressed for
the cycle iff `C + N < T` (`C` existing stored count, `N` surviving
candidates); a suppressed cycle still persists and counts every new
keyed candidate; and a batch of fresh, distinctly-keyed candidates with
`C + N = T` notifies every one of them and leaves exactly `T` stored
releases for the item. -/
theorem c3_min_count_gate :
    (∀ (T : Int) (C N : Nat), 0 < T →
      (shouldNotifyOf (some T) C N = false ↔ (C : Int) + N < T)) ∧
    (∀ (i : Str) (rows : List ReleaseRec) (cands : List Cand) (t0 : Int),
      (∀ c ∈ cands, c.hash.isSome) →
      (∀ c ∈ cands, findRelease rows i (c.hash.getD []) = none) →
      (cands.map fun c => c.hash.getD []).Nodup →
      (processCandidates false i rows cands t0).notified = [] ∧
        (processCandidates false i rows cands t0).found = cands.length ∧
        ∀ c ∈ cands,
          (findRelease (processCandidates false i rows cands t0).rows i
            (c.hash.getD [])).isSome) ∧
    (∀ (T : Int) (i : Str) (rows : List ReleaseRec) (cands : List Cand)
        (t0 : Int), 0 < T →
      (∀ c ∈ cands, c.hash.isSome) →
      (∀ c ∈ cands, findRelease rows i (c.hash.getD []) = none) →
      (cands.map fun c => c.hash.getD []).Nodup →
      (countFor rows i : Int) + cands.length = T →
      (runBatch (some T) i rows cands t0).1 = true ∧
        (countFor (runBatch (some T) i rows cands t0).2.rows i : Int) = T ∧
        (runBatch (some T) i rows cands t0).2.notified = cands ∧
        (runBatch (some T) i rows cands t0).2.found = cands.length) := by
  refine ⟨?_, ?_, ?_⟩
  · intro T C N hT
    simp only [shouldNotifyOf]
    rw [if_pos ⟨by omega, hT⟩]
    by_cases hlt : (C : Int) + N < T
    · simp [hlt]
    · simp [hlt]
  · intro i rows cands t0 h1 h2 h3
    obtain ⟨a, b, _, d⟩ := processCandidates_fresh_spec false i cands rows t0 h1 h2 h3
    exact ⟨by simpa using a, b, d⟩
  · intro T i rows cands t0 hT h1 h2 h3 hsum
    have hsn : shouldNotifyOf (some T) (countFor rows i) cands.length = true := by
      simp only [shouldNotifyOf]
      rw [if_pos ⟨by omega, hT⟩, if_neg (by omega)]
    obtain ⟨a, b, cnt, _⟩ := processCandidates_fresh_spec true i cands rows t0 h1 h2 h3
    refine ⟨by simp [runBatch, hsn], ?_, ?_, ?_⟩
    · simp only [runBatch, hsn]
      rw [cnt]
      push_cast
      omega
    · simp only [runBatch, hsn]
      simpa using a
    · simp only [runBatch, hsn]
      exact b

def c3wCands : List Cand :=
  [⟨some ("aa".data), none, none, none, none, none⟩,
   ⟨some ("bb".data), none, none, none, none, none⟩]

theorem c3_witness :
    (runBatch (some 2) ("tt1".data) [] c3wCands 0).1 = true ∧
      (countFor (runBatch (some 2) ("tt1".data) [] c3wCands 0).2.rows
        ("tt1".data) : Int) = 2 ∧
      (runBatch (some 2) ("tt1".data) [] c3wCands 0).2.notified = c3wCands ∧
      (runBatch (some 2) ("tt1".data) [] c3wCands 0).2.found = c3wCands.length :=
  c3_min_count_gate.2.2 2 ("tt1".data) [] c3wCands 0 (by decide) (by decide)
    (by decide) (by decide) (by decide)

/-! ## Claim C8: preference-filter composition -/

theorem filter_pref_both_inactive (x : List RawResult) (pq pa : Option Str)
    (hq : truthyS pq = false) (ha : truthyS pa = false) :
    filter_releases_by_preferences x pq pa = x := by
  simp [filter_releases_by_preferences, hq, ha]

theorem filter_pref_q_active (x : List RawResult) (q : Str) (pa : Option Str)
    (hq : q ≠ []) (ha : truthyS pa = false) :
    filter_releases_by_preferences x (some q) pa =
      x.filter fun r =>
        qualityMatchB q (qualityStrOf r) (pyLowerStr (r.title.getD [])) := by
  cases pa with
  | none => simp [filter_releases_by_preferences, truthyS, hq]
  | some a =>
    have ha' : a = [] := by simpa [truthyS] using ha
    subst ha'
    simp [filter_releases_by_preferences, truthyS, hq]

theorem filter_pref_a_active (x : List RawResult) (pq : Option Str) (a : Str)
    (hq : truthyS pq = false) (ha : a ≠ []) :
    filter_releases_by_preferences x pq (some a) =
      x.filter fun r => audioMatchB a (pyLowerStr (r.title.getD [])) := by
  cases pq with
  | none => simp [filter_releases_by_preferences, truthyS, ha]
  | some q =>
    have hq' : q = [] := by simpa [truthyS] using hq
    subst hq'
    simp [filter_releases_by_preferences, truthyS, ha]

theorem filter_pref_both_active (x : List RawResult) (q a : Str)
    (hq : q ≠ []) (ha : a ≠ []) :
    filter_releases_by_preferences x (some q) (some a) =
      x.filter fun r =>
        qualityMatchB q (qualityStrOf r) (pyLowerStr (r.title.getD [])) &&
          audioMatchB a (pyLowerStr (r.title.getD [])) := by
  simp [filter_releases_by_preferences, truthyS, hq, ha]

/-- C8.  Filtering with only the quality preference and then with only
the audio preference equals filtering once with both; with both
preferences absent the filter is the identity. -/
theorem c8_pref_filter_compose :
    (∀ (results : List RawResult) (pq pa : Option Str),
      filter_releases_by_preferences
          (filter_releases_by_preferences results pq none) none pa =
        filter_releases_by_preferences results pq pa) ∧
    ∀ results : List RawResult,
      filter_releases_by_preferences results none none = results := by
  constructor
  · intro results pq pa
    by_cases hq : truthyS pq = true
    · obtain ⟨q, rfl⟩ : ∃ q, pq = some q := by
        cases pq with
        | none => simp [truthyS] at hq
        | some q => exact ⟨q, rfl⟩
      have hqne : q ≠ [] := by simpa [truthyS] using hq
      by_cases ha : truthyS pa = true
      · obtain ⟨a, rfl⟩ : ∃ a, pa = some a := by
          cases pa with
          | none => simp [truthyS] at ha
          | some a => exact ⟨a, rfl⟩
        have hane : a ≠ [] := by simpa [truthyS] using ha
        rw [filter_pref_q_active results q none hqne rfl,
          filter_pref_a_active _ none a rfl hane,
          filter_pref_both_active results q a hqne hane,
          List.filter_filter]
        apply List.filter_congr
        intro r _
        cases qualityMatchB q (qualityStrOf r) (pyLowerStr (r.title.getD [])) <;>
          cases audioMatchB a (pyLowerStr (r.title.getD [])) <;> rfl
      · have ha' : truthyS pa = false := by simpa using ha
        rw [filter_pref_q_active results q none hqne rfl,
          filter_pref_both_inactive _ none pa rfl ha',
          filter_pref_q_active results q pa hqne ha']
    · have hq' : truthyS pq = false := by simpa using hq
      rw [filter_pref_both_inactive results pq none hq' rfl]
      by_cases ha : truthyS pa = true
      · obtain ⟨a, rfl⟩ : ∃ a, pa = some a := by
          cases pa with
          | none => simp [truthyS] at ha
          | some a => exact ⟨a, rfl⟩
        have hane : a ≠ [] := by simpa [truthyS] using ha
        rw [filter_pref_a_active results none a rfl hane,
          filter_pref_a_active results pq a hq' hane]
      · have ha' : truthyS pa = false := by simpa using ha
        rw [filter_pref_both_inactive results none pa rfl ha',
          filter_pref_both_inactive results pq pa hq' ha']
  · intro results
    rfl

/-! ## Claim C9: magnet synthesis from the derived info-hash -/

theorem magnetStep_none (mfield : Option Str) :
    magnetStep mfield none = magnetFieldPart mfield := by
  by_cases hm : truthyS (magnetFieldPart mfield) = true <;>
    simp [magnetStep, truthyS, hm]

theorem hex_no_http {h : Str} (hhex : h.all isHexChar = true) (hlen : 32 ≤ h.length) :
    ("http".data).isPrefixOf h = false := by
  cases h with
  | nil => simp at hlen
  | cons c rest =>
    have hc : isHexChar c = true := by
      have := List.all_eq_true.mp hhex c (by simp)
      simpa using this
    have hch : c ≠ 'h' := by
      intro he
      subst he
      simp [isHexChar, Char.isDigit] at hc
    show (('h' :: "ttp".data).isPrefixOf (c :: rest)) = false
    simp only [List.isPrefixOf]
    have : ('h' == c) = false := by
      cases hbe : ('h' == c)
      · rfl
      · exact absurd (beq_iff_eq.mp hbe).symm hch
    simp [this]

/-- C9.  A magnet synthesized from the derived info-hash only exists when
the hash is a non-URL hex string of length at least 32, and then has
exactly the form `magnet:?xt=urn:btih:<hash>`; the synthesis step never
produces a magnet from a non-hex or short identifier. -/
theorem c9_magnet_synth :
    (∀ (mfield : Option Str) (h m : Str),
      magnetStep mfield none = none →
      magnetStep mfield (some h) = some m →
      h.all isHexChar = true ∧ 32 ≤ h.length ∧
        ("http".data).isPrefixOf h = false ∧
        m = ("magnet:?xt=urn:btih:".data) ++ h) ∧
    (∀ h : Str, ¬(h.all isHexChar = true ∧ 32 ≤ h.length) →
      synthFromHash h = none) := by
  constructor
  · intro mfield h m hnone hsome
    rw [magnetStep_none] at hnone
    rw [magnetStep] at hsome
    simp only [hnone, truthyS, ne_eq, not_true_eq_false, Bool.false_eq_true,
      if_false] at hsome
    by_cases hh : h = []
    · subst hh
      simp [truthyS] at hsome
    · have hth : (decide ¬h = []) = true := decide_eq_true hh
      rw [hth] at hsome
      simp only [if_true, Option.getD_some] at hsome
      unfold synthFromHash at hsome
      by_cases hpre : ("http".data).isPrefixOf h = true
      · simp [hpre] at hsome
      · have hpre' : ("http".data).isPrefixOf h = false := Bool.eq_false_iff.mpr hpre
        rw [hpre'] at hsome
        simp only [Bool.false_eq_true, if_false] at hsome
        by_cases h40 : (h.length = 40 && h.all isHexChar) = true
        · rw [if_pos h40] at hsome
          obtain ⟨hl, hx⟩ := Bool.and_eq_true_iff.mp h40
          have hl' : h.length = 40 := by simpa using hl
          exact ⟨hx, by omega, hpre', (Option.some_inj.mp hsome).symm⟩
        · rw [if_neg h40] at hsome
          by_cases h32 : (decide (h.length ≥ 32) && h.all isHexChar) = true
          · rw [if_pos h32] at hsome
            obtain ⟨hl, hx⟩ := Bool.and_eq_true_iff.mp h32
            have hl' : 32 ≤ h.length := by simpa using hl
            exact ⟨hx, hl', hpre', (Option.some_inj.mp hsome).symm⟩
          · rw [if_neg h32] at hsome
            exact absurd hsome (by simp)
  · intro h hbad
    unfold synthFromHash
    by_cases hpre : ("http".data).isPrefixOf h = true
    · simp [hpre]
    · have hpre' : ("http".data).isPrefixOf h = false := Bool.eq_false_iff.mpr hpre
      rw [hpre']
      have h40 : (h.length = 40 && h.all isHexChar) = false := by
        cases hx : h.all isHexChar
        · simp
        · have : ¬32 ≤ h.length := fun hl => hbad ⟨hx, hl⟩
          have : h.length ≠ 40 := by omega
          simp [this]
      have h32 : (decide (h.length ≥ 32) && h.all isHexChar) = false := by
        cases hx : h.all isHexChar
        · simp
        · have : ¬32 ≤ h.length := fun hl => hbad ⟨hx, hl⟩
          simp [this]
      simp [h40, h32]

theorem c9_witness :
    ((List.replicate 40 'a').all isHexChar = true ∧ 32 ≤ (List.replicate 40 'a').length ∧
      ("http".data).isPrefixOf (List.replicate 40 'a') = false ∧
      ("magnet:?xt=urn:btih:".data) ++ List.replicate 40 'a' =
        ("magnet:?xt=urn:btih:".data) ++ List.replicate 40 'a') ∧
    magnetStep none (some (List.replicate 40 'a')) =
      some (("magnet:?xt=urn:btih:".data) ++ List.replicate 40 'a') := by
  constructor
  · have := c9_magnet_synth.1 none (List.replicate 40 'a')
      (("magnet:?xt=urn:btih:".data) ++ List.replicate 40 'a') rfl (by decide)
    exact ⟨this.1, this.2.1, this.2.2.1, rfl⟩
  · decide

/-! ## Claim C10: empty-query short circuit -/

/-- C10.  An empty query returns `[]` immediately with no HTTP request
and no exception; a transport failure on a non-empty query raises; and
the value returned for an empty query is the one a provider answering
"no matches" produces. -/
theorem c10_empty_query :
    (∀ transport : Str → TransportResult,
      search_by_query transport [] = (.ok [], 0)) ∧
    (∀ (transport : Str → TransportResult) (q msg : Str),
      q ≠ [] → transport q = .failure msg →
      search_by_query transport q =
        (.error (("Prowlarr API error: ".data) ++ msg), 1)) ∧
    (∀ (transport : Str → TransportResult) (q : Str),
      q ≠ [] → transport q = .success [] →
      (search_by_query transport q).1 = (search_by_query transport []).1) := by
  refine ⟨fun t => rfl, ?_, ?_⟩
  · intro t q msg hq hf
    simp [search_by_query, hq, hf]
  · intro t q hq hs
    simp [search_by_query, hq, hs]

def c10transport : Str → TransportResult := fun _ => .failure ("boom".data)

theorem c10_witness :
    search_by_query c10transport ("x".data) =
      (.error (("Prowlarr API error: ".data) ++ ("boom".data)), 1) :=
  c10_empty_query.2.1 c10transport ("x".data) ("boom".data) (by decide) rfl

/-! ## Claim C5: circuit breaker -/

def c5cb0 : CB := CB.init 2 60

/-- Refutes C5's parenthetical "a count that any intervening success
resets": with threshold 2, the sequence fail (t=100), success (t=101),
fail (t=102) from the initial CLOSED state leaves the breaker OPEN even
though no two consecutive failures ever occurred — the success in the
CLOSED state left the failure count at 1. -/
theorem c5_counterexample :
    ((cbCall ((cbCall ((cbCall c5cb0 100 false).2) 101 true).2) 102 false).2).state =
        CBState.opened ∧
      ((cbCall ((cbCall c5cb0 100 false).2) 101 true).2).failure_count = 1 := by
  decide

/-- C5 (amended).  The breaker starts CLOSED; a call in the OPEN state
within `recovery_timeout` of the last failure is rejected without
invoking the wrapped function and without changing any state; after the
timeout a trial call is let through and its success returns the breaker
to CLOSED with the count reset; a success in the CLOSED state leaves
the breaker (count included) unchanged, so only a HALF_OPEN trial
success resets the count; and a non-rejected call leaves the breaker
OPEN exactly when it fails with the incremented count reaching the
threshold. -/
theorem c5_breaker_amended :
    (∀ (thr : Nat) (tmo : Int),
      (CB.init thr tmo).state = CBState.closed ∧ (CB.init thr tmo).failure_count = 0) ∧
    (∀ (cb : CB) (now : Int) (ok : Bool), cb.state = CBState.opened →
      now - cb.last_failure_time.getD 0 < cb.recovery_timeout →
      cbCall cb now ok = (.rejected, cb)) ∧
    (∀ (cb : CB) (now : Int), cb.state = CBState.opened →
      ¬(now - cb.last_failure_time.getD 0 < cb.recovery_timeout) →
      cbCall cb now true =
        (.succeeded, { cb with state := CBState.closed, failure_count := 0 })) ∧
    (∀ (cb : CB) (now : Int), cb.state = CBState.closed →
      cbCall cb now true = (.succeeded, cb)) ∧
    (∀ (cb : CB) (now : Int) (ok : Bool),
      (cbCall cb now ok).1 ≠ CallOutcome.rejected →
      ((cbCall cb now ok).2.state = CBState.opened ↔
        ok = false ∧ cb.failure_threshold ≤ cb.failure_count + 1)) := by
  refine ⟨fun thr tmo => ⟨rfl, rfl⟩, ?_, ?_, ?_, ?_⟩
  · intro cb now ok hop htime
    simp [cbCall, hop, htime]
  · intro cb now hop htime
    simp [cbCall, hop, htime]
  · intro cb now hcl
    have : cb.state ≠ CBState.opened := by rw [hcl]; intro hx; cases hx
    have hhalf : cb.state ≠ CBState.halfOpen := by rw [hcl]; intro hx; cases hx
    simp [cbCall, this, hhalf]
  · intro cb now ok hrej
    by_cases hop : cb.state = CBState.opened
    · by_cases htime : now - cb.last_failure_time.getD 0 < cb.recovery_timeout
      · simp [cbCall, hop, htime] at hrej
      · cases ok
        · by_cases hthr : cb.failure_threshold ≤ cb.failure_count + 1
          · simp [cbCall, hop, htime, hthr]
          · simp [cbCall, hop, htime, hthr]
        · simp [cbCall, hop, htime]
    · cases ok
      · by_cases hthr : cb.failure_threshold ≤ cb.failure_count + 1
        · simp [cbCall, hop, hthr]
        · simp [cbCall, hop, hthr]
      · by_cases hhalf : cb.state = CBState.halfOpen
        · simp [cbCall, hop, hhalf]
        · simp [cbCall, hop, hhalf]

theorem c5_witness :
    cbCall ⟨2, 60, 2, some 100, CBState.opened⟩ 120 true =
      (CallOutcome.rejected, ⟨2, 60, 2, some 100, CBState.opened⟩) :=
  c5_breaker_amended.2.1 ⟨2, 60, 2, some 100, CBState.opened⟩ 120 true rfl (by decide)

/-! ## Claim C1: unconditional last-checked update -/

def c1Item : ItemInput :=
  { imdb_id := "tt0903747".data, title := "Breaking Bad".data,
    original_title := [], item_type := "movie".data, year := [],
    target_season := none, preferred_quality := none, preferred_audio := none,
    min_releases_count := none }

def c1Env : SearchEnv := ⟨.error (), fun _ => .error ()⟩

/-- Refutes C1: when both the id-based search and the keyword fallback
raise, `process_item` returns 0 at line 170 without reaching the
`last_checked` update at lines 438–447, so `last_checked` is not
updated for that attempt. -/
theorem c1_counterexample :
    (process_item c1Item c1Env [] 0).lastChecked = false ∧
      (process_item c1Item c1Env [] 0).found = 0 := by
  constructor <;> rfl

/-- C1 (amended).  `last_checked` is updated at the end of the attempt
exactly when the search query is non-empty and the search phase
produced a result list (possibly empty, possibly via the keyword
fallback) — in particular it is updated when zero releases are found;
but when both search strategies raise (or the query is empty), the item
returns 0 with the store untouched and `last_checked` not updated. -/
theorem c1_last_checked_amended :
    ∀ (it : ItemInput) (env : SearchEnv) (rows : List ReleaseRec) (t0 : Int),
      ((process_item it env rows t0).lastChecked = true ↔
        (searchQueryBase it ≠ [] ∧
          (searchPhase env it.imdb_id (buildSearchQuery it)).isSome)) ∧
      ((searchQueryBase it = [] ∨
          searchPhase env it.imdb_id (buildSearchQuery it) = none) →
        process_item it env rows t0 = ⟨0, false, rows, []⟩) := by
  intro it env rows t0
  by_cases hbase : searchQueryBase it = []
  · constructor
    · simp [process_item, hbase]
    · intro _
      simp [process_item, hbase]
  · cases hsp : searchPhase env it.imdb_id (buildSearchQuery it) with
    | none =>
      constructor
      · simp [process_item, hbase, hsp]
      · intro _
        simp [process_item, hbase, hsp]
    | some results =>
      constructor
      · simp [process_item, hbase, hsp]
      · intro hcase
        rcases hcase with hcase | hcase
        · exact absurd hcase hbase
        · cases hcase

theorem c1_witness :
    ((process_item c1Item ⟨.ok [], fun _ => .ok []⟩ [] 0).lastChecked = true ↔
      (searchQueryBase c1Item ≠ [] ∧
        (searchPhase ⟨.ok [], fun _ => .ok []⟩ c1Item.imdb_id
          (buildSearchQuery c1Item)).isSome)) :=
  (c1_last_checked_amended c1Item ⟨.ok [], fun _ => .ok []⟩ [] 0).1

/-! ## Claim C2: identity matching -/

theorem pyLowerStr_eq_nil {x : Str} : pyLowerStr x = [] ↔ x = [] := by
  simp [pyLowerStr]

theorem acceptResult_eq_spec (kws : List Str) (imdb_id : Str) (r : RawResult) :
    acceptResult kws (decide (kws.length ≤ 2)) imdb_id r =
      c2SpecAccept kws imdb_id r := by
  unfold acceptResult c2SpecAccept
  simp only []
  set tag := (pyOr r.imdbId r.imdb_id).getD [] with htag
  set rn := normalize_title (pyLowerStr (r.title.getD [])) with hrn
  set mc := kws.countP (fun w => strContains rn w) with hmc
  have hbranch :
      (if tag ≠ [] ∧ imdb_id ≠ [] then
        (pyStrip tag ≠ [] && pyStrip tag ≠ ("0".data) &&
          pyLowerStr (pyStrip tag) = pyLowerStr (pyStrip imdb_id) : Bool)
      else false) =
      (pyStrip tag ≠ [] && pyStrip tag ≠ ("0".data) &&
        pyLowerStr (pyStrip tag) = pyLowerStr (pyStrip imdb_id) : Bool) := by
    by_cases hg : tag ≠ [] ∧ imdb_id ≠ []
    · rw [if_pos hg]
    · rw [if_neg hg]
      rcases not_and_or.mp hg with hx | hx
      · have htg : tag = [] := by simpa using hx
        rw [htg]
        simp [pyStrip]
      · have him : imdb_id = [] := by simpa using hx
        rw [him]
        by_cases hst : pyStrip tag = []
        · simp [hst]
        · have hlo : pyLowerStr (pyStrip tag) ≠ [] := fun he =>
            hst (pyLowerStr_eq_nil.mp he)
          have hnil : pyLowerStr (pyStrip ([] : Str)) = [] := rfl
          rw [hnil]
          simp [hlo]
  rw [hbranch]
  set ib := (pyStrip tag ≠ [] && pyStrip tag ≠ ("0".data) &&
    pyLowerStr (pyStrip tag) = pyLowerStr (pyStrip imdb_id) : Bool) with hib
  cases hibv : ib
  · simp only [Bool.false_eq_true, if_false, Bool.false_or]
    by_cases hsh : kws.length ≤ 2
    · have hd : decide (kws.length ≤ 2) = true := decide_eq_true hsh
      rw [hd]
      simp only [if_true, if_pos hsh]
      have hle : mc ≤ kws.length := by
        rw [hmc]; exact List.countP_le_length _
      by_cases he : mc = kws.length
      · simp [he]
      · have hlt : ¬kws.length ≤ mc := by omega
        simp [he, hlt]
    · simp [hsh]
  · simp

theorem c2_keywords_example :
    itemKeywords ("Во все тяжкие".data) ("Breaking Bad".data) ≠ [] := by decide

/-- C2.  Given a non-empty result list and a non-empty combined keyword
set for the item, the identity filter keeps exactly (and in order) the
results accepted by the claim's rule: matching external IMDb tag
(non-empty, not "0", case-insensitively equal after trimming), or all
keywords present for a short query (|K| ≤ 2), or, for longer queries, at
least `max(2, |K| / 2)` keyword matches or one matching keyword of
length ≥ 5. -/
theorem c2_identity_matching (results : List RawResult)
    (imdb_id title original_title : Str) (hres : results ≠ [])
    (hkw : itemKeywords title original_title ≠ []) :
    filter_results_by_imdb_or_title results imdb_id title original_title =
      results.filter
        (c2SpecAccept (itemKeywords title original_title) imdb_id) := by
  unfold filter_results_by_imdb_or_title
  rw [if_neg hres]
  simp only [if_neg hkw]
  apply List.filter_congr
  intro r _
  exact acceptResult_eq_spec _ imdb_id r

def c2wResults : List RawResult :=
  [{ title := some ("Breaking Bad S01 1080p Rus Eng".data) },
   { title := some ("Totally Different Show".data),
     imdbId := some ("tt0903747".data) },
   { title := some ("The Rip 2160p".data) }]

theorem c2_witness :
    filter_results_by_imdb_or_title c2wResults ("tt0903747".data)
        ("Во все тяжкие".data) ("Breaking Bad".data) =
      c2wResults.filter
        (c2SpecAccept (itemKeywords ("Во все тяжкие".data) ("Breaking Bad".data))
          ("tt0903747".data)) :=
  c2_identity_matching c2wResults ("tt0903747".data) ("Во все тяжкие".data)
    ("Breaking Bad".data) (by decide) (by decide)

/-! ## Claim C7: season stripping -/

theorem digit_not_white {c : Char} (h : c.isDigit = true) :
    c.isWhitespace = false := by
  by_contra hw
  have hw' : c.isWhitespace = true := by simpa using hw
  simp only [Char.isWhitespace, Bool.or_eq_true, decide_eq_true_eq] at hw'
  rcases hw' with ((rfl | rfl) | rfl) | rfl <;> exact absurd h (by decide)

theorem takeWhile_append_all {p : Char → Bool} (d r : Str)
    (hd : ∀ c ∈ d, p c = true) :
    (d ++ r).takeWhile p = d ++ r.takeWhile p := by
  induction d with
  | nil => simp
  | cons c d' ih =>
    have hc : p c = true := hd c (by simp)
    simp only [List.cons_append, List.takeWhile_cons, hc, if_true]
    rw [ih fun x hx => hd x (by simp [hx])]

theorem dropWhile_append_all {p : Char → Bool} (d r : Str)
    (hd : ∀ c ∈ d, p c = true) :
    (d ++ r).dropWhile p = r.dropWhile p := by
  induction d with
  | nil => simp
  | cons c d' ih =>
    have hc : p c = true := hd c (by simp)
    simp only [List.cons_append, List.dropWhile_cons, hc, if_true]
    exact ih fun x hx => hd x (by simp [hx])

theorem subAllF_step_none (m : Option Char → Str → Option MRes)
    (prev : Option Char) (c : Char) (rest : Str)
    (h : m prev (c :: rest) = none) :
    subAllF m ((c :: rest).length) prev (c :: rest) =
      c :: subAllF m rest.length (some c) rest := by
  simp [subAllF, h]

theorem subAllF_step_match (m : Option Char → Str → Option MRes)
    (prev : Option Char) (c : Char) (rest : Str) (res : MRes)
    (h : m prev (c :: rest) = some res) :
    subAllF m ((c :: rest).length) prev (c :: rest) =
      subAllF m rest.length res.matched.getLast? res.rest := by
  simp [subAllF, h]

theorem subAllF_nil (m : Option Char → Str → Option MRes)
    (hm : ∀ p, m p [] = none) (fuel : Nat) (prev : Option Char) :
    subAllF m fuel prev [] = [] := by
  cases fuel with
  | zero => rfl
  | succ n => simp [subAllF, hm]

theorem cp1_nil (prev : Option Char) : cp1 prev [] = none := rfl

theorem cp1_skip1 (prev : Option Char) (c : Char) (r : Str)
    (hw : c.isWhitespace = false) (hd : c.isDigit = false) :
    cp1 prev (c :: r) = none := by
  simp [cp1, spanWhite, spanDigits, List.takeWhile_cons, List.dropWhile_cons,
    hw, hd]

theorem cp1_skip2 (prev : Option Char) (c c2 : Char) (r : Str)
    (hw : c.isWhitespace = true) (hw2 : c2.isWhitespace = false)
    (hd2 : c2.isDigit = false) :
    cp1 prev (c :: c2 :: r) = none := by
  simp [cp1, spanWhite, spanDigits, List.takeWhile_cons, List.dropWhile_cons,
    hw, hw2, hd2]

theorem cp1_match_season (prev : Option Char) (d : Str) (hne : d ≠ [])
    (hdig : ∀ c ∈ d, c.isDigit = true) :
    cp1 prev (' ' :: (d ++ (' ' :: ("сезон".data)))) =
      some ⟨d, ([' '] ++ d) ++ [' '] ++ ("сезон".data), []⟩ := by
  have hdw : ∀ c ∈ d, c.isWhitespace = false := fun c hc =>
    digit_not_white (hdig c hc)
  obtain ⟨c0, d', rfl⟩ : ∃ c0 d', d = c0 :: d' := by
    cases d with
    | nil => exact absurd rfl hne
    | cons a b => exact ⟨a, b, rfl⟩
  have hc0w : c0.isWhitespace = false := hdw c0 (by simp)
  have htw : ((c0 :: d') ++ (' ' :: ("сезон".data))).takeWhile Char.isDigit =
      c0 :: d' := by
    rw [takeWhile_append_all _ _ hdig]
    simp [List.takeWhile_cons]
  have hdw2 : ((c0 :: d') ++ (' ' :: ("сезон".data))).dropWhile Char.isDigit =
      ' ' :: ("сезон".data) := by
    rw [dropWhile_append_all _ _ hdig]
    simp [List.dropWhile_cons]
  have halt : seasonAlt ("сезон".data) = some ("сезон".data, []) := by decide
  have h1 : spanWhite (' ' :: ((c0 :: d') ++ (' ' :: ("сезон".data)))) =
      ([' '], (c0 :: d') ++ (' ' :: ("сезон".data))) := by
    simp [spanWhite, List.takeWhile_cons, List.dropWhile_cons, hc0w]
  have h2 : spanDigits ((c0 :: d') ++ (' ' :: ("сезон".data))) =
      (c0 :: d', ' ' :: ("сезон".data)) := by
    simp only [spanDigits]
    rw [htw, hdw2]
  have h3 : spanWhite (' ' :: ("сезон".data)) = ([' '], "сезон".data) := by decide
  simp only [cp1, h1, h2, h3, halt]
  simp

/-- Refutes C7's "markers whose number lies outside 1–100 are left in
place": `clean_title_from_season` has no range check, so the marker
"200 сезон" is removed like any other. -/
theorem c7_counterexample :
    clean_title_from_season ("Stranger Things 200 сезон".data) =
        ("Stranger Things".data) ∧
      strContains (clean_title_from_season ("Stranger Things 200 сезон".data))
        ("сезон".data) = false := by
  constructor
  · decide
  · decide

/-- C7 (amended).  `strip_season` removes a trailing season marker
regardless of its number — for every non-empty digit string `d`
(any value, in or out of 1–100), stripping `"Stranger Things <d> сезон"`
yields exactly `"Stranger Things"` with surrounding whitespace
trimmed. -/
theorem c7_strip_amended (d : Str) (hne : d ≠ [])
    (hdig : ∀ c ∈ d, c.isDigit = true) :
    clean_title_from_season (("Stranger Things ".data) ++ d ++ (" сезон".data)) =
      ("Stranger Things".data) := by
  have hS : ("Stranger Things ".data) ++ d ++ (" сезон".data) =
      'S' :: 't' :: 'r' :: 'a' :: 'n' :: 'g' :: 'e' :: 'r' :: ' ' :: 'T' :: 'h' ::
        'i' :: 'n' :: 'g' :: 's' :: ' ' :: (d ++ (' ' :: ("сезон".data))) := rfl
  have hA : subAll cp1 (("Stranger Things ".data) ++ d ++ (" сезон".data)) =
      ("Stranger Things".data) := by
    rw [hS]
    simp only [subAll]
    rw [subAllF_step_none cp1 _ _ _ (cp1_skip1 _ _ _ (by decide) (by decide))]
    rw [subAllF_step_none cp1 _ _ _ (cp1_skip1 _ _ _ (by decide) (by decide))]
    rw [subAllF_step_none cp1 _ _ _ (cp1_skip1 _ _ _ (by decide) (by decide))]
    rw [subAllF_step_none cp1 _ _ _ (cp1_skip1 _ _ _ (by decide) (by decide))]
    rw [subAllF_step_none cp1 _ _ _ (cp1_skip1 _ _ _ (by decide) (by decide))]
    rw [subAllF_step_none cp1 _ _ _ (cp1_skip1 _ _ _ (by decide) (by decide))]
    rw [subAllF_step_none cp1 _ _ _ (cp1_skip1 _ _ _ (by decide) (by decide))]
    rw [subAllF_step_none cp1 _ _ _ (cp1_skip1 _ _ _ (by decide) (by decide))]
    rw [subAllF_step_none cp1 _ _ _ (cp1_skip2 _ _ _ _ (by decide) (by decide)
      (by decide))]
    rw [subAllF_step_none cp1 _ _ _ (cp1_skip1 _ _ _ (by decide) (by decide))]
    rw [subAllF_step_none cp1 _ _ _ (cp1_skip1 _ _ _ (by decide) (by decide))]
    rw [subAllF_step_none cp1 _ _ _ (cp1_skip1 _ _ _ (by decide) (by decide))]
    rw [subAllF_step_none cp1 _ _ _ (cp1_skip1 _ _ _ (by decide) (by decide))]
    rw [subAllF_step_none cp1 _ _ _ (cp1_skip1 _ _ _ (by decide) (by decide))]
    rw [subAllF_step_none cp1 _ _ _ (cp1_skip1 _ _ _ (by decide) (by decide))]
    rw [subAllF_step_match cp1 _ _ _ _ (cp1_match_season _ d hne hdig)]
    rw [subAllF_nil cp1 cp1_nil]
  have hne2 : ("Stranger Things ".data) ++ d ++ (" сезон".data) ≠ [] := by
    rw [hS]
    intro hx
    cases hx
  unfold clean_title_from_season
  rw [if_neg hne2, hA]
  decide

theorem c7_witness :
    (['4'] : Str) ≠ [] ∧ (∀ c ∈ (['4'] : Str), c.isDigit = true) ∧
      clean_title_from_season
          (("Stranger Things ".data) ++ ['4'] ++ (" сезон".data)) =
        ("Stranger Things".data) :=
  ⟨by decide, by decide, c7_strip_amended ['4'] (by decide) (by decide)⟩

/-! ## Claim C6: season extraction -/

/-- Variant A of a recognized span: digits, whitespace, season word. -/
def goodA (res : MRes) : Prop :=
  ∃ sp w, res.matched = res.digits ++ sp ++ w ∧
    (∀ c ∈ sp, c.isWhitespace = true) ∧ pyLowerStr w ∈ seasonWordsA

/-- Variant B of a recognized span: season word, whitespace, digits. -/
def goodB (res : MRes) : Prop :=
  ∃ w sp, res.matched = w ++ sp ++ res.digits ∧
    (∀ c ∈ sp, c.isWhitespace = true) ∧ pyLowerStr w ∈ seasonWordsB

/-- A matcher is sound when every match decomposes its input into a
marker-shaped span followed by the rest. -/
def matcherSound (m : Option Char → Str → Option MRes) : Prop :=
  ∀ p s res, m p s = some res →
    s = res.matched ++ res.rest ∧ res.digits ≠ [] ∧
      (∀ c ∈ res.digits, c.isDigit = true) ∧ (goodA res ∨ goodB res)

theorem litCI_sound {lit s w r : Str} (h : litCI lit s = some (w, r)) :
    s = w ++ r ∧ pyLowerStr w = lit := by
  unfold litCI at h
  by_cases hc : pyLowerStr (s.take lit.length) = lit
  · rw [if_pos hc] at h
    obtain ⟨h1, h2⟩ := Prod.mk.injEq .. ▸ Option.some_inj.mp h
    subst h1; subst h2
    exact ⟨(List.take_append_drop _ s).symm, hc⟩
  · simp [hc] at h

theorem tryLit_sound {lit s w r : Str} (h : tryLit lit s = some (w, r)) :
    s = w ++ r ∧ pyLowerStr w = lit := by
  unfold tryLit at h
  split at h
  · rename_i w' r' heq
    split at h
    · have h2 := Option.some_inj.mp h
      obtain ⟨rfl, rfl⟩ := Prod.mk.injEq .. ▸ h2
      exact litCI_sound heq
    · cases h
  · cases h

theorem seasonAlt_sound {s w r : Str} (h : seasonAlt s = some (w, r)) :
    s = w ++ r ∧ pyLowerStr w ∈ seasonWordsA := by
  unfold seasonAlt at h
  split at h
  · rename_i wr heq
    have := Option.some_inj.mp h
    subst this
    obtain ⟨hd, hl⟩ := tryLit_sound heq
    exact ⟨hd, by simp [seasonWordsA, hl]⟩
  · split at h
    · rename_i wr heq
      have := Option.some_inj.mp h
      subst this
      obtain ⟨hd, hl⟩ := tryLit_sound heq
      exact ⟨hd, by simp [seasonWordsA, hl]⟩
    · obtain ⟨hd, hl⟩ := tryLit_sound h
      exact ⟨hd, by simp [seasonWordsA, hl]⟩

theorem sWord_sound {s w r : Str} (h : sWord s = some (w, r)) :
    s = w ++ r ∧ pyLowerStr w ∈ seasonWordsB := by
  unfold sWord at h
  split at h
  · rename_i wr heq
    have := Option.some_inj.mp h
    subst this
    obtain ⟨hd, hl⟩ := litCI_sound heq
    exact ⟨hd, by simp [seasonWordsB, hl]⟩
  · obtain ⟨hd, hl⟩ := litCI_sound h
    exact ⟨hd, by simp [seasonWordsB, hl]⟩

theorem spanWhite_white (s : Str) : ∀ c ∈ (spanWhite s).1, c.isWhitespace = true :=
  fun _ hc => List.mem_takeWhile_imp hc

theorem spanDigits_digit (s : Str) : ∀ c ∈ (spanDigits s).1, c.isDigit = true :=
  fun _ hc => List.mem_takeWhile_imp hc

theorem ep1_sound : matcherSound ep1 := by
  intro p s res h
  unfold ep1 at h
  split at h
  · simp only [spanWhite, spanDigits] at h
    split at h
    · cases h
    · rename_i hds
      split at h
      · rename_i w r3 halt
        have hres := Option.some_inj.mp h
        subst hres
        obtain ⟨hdec, hw⟩ := seasonAlt_sound halt
        refine ⟨?_, hds, fun c hc => List.mem_takeWhile_imp hc, Or.inl ?_⟩
        · show s = (s.takeWhile Char.isDigit ++
            (s.dropWhile Char.isDigit).takeWhile Char.isWhitespace ++ w) ++ r3
          conv_lhs => rw [← List.takeWhile_append_dropWhile Char.isDigit s]
          conv_lhs => rw [← List.takeWhile_append_dropWhile Char.isWhitespace
            (s.dropWhile Char.isDigit)]
          rw [hdec]
          simp [List.append_assoc]
        · exact ⟨_, w, rfl, fun c hc => List.mem_takeWhile_imp hc, hw⟩
      · cases h
  · cases h

theorem ep2_sound : matcherSound ep2 := by
  intro p s res h
  unfold ep2 at h
  split at h
  · split at h
    · rename_i w r1 hsw
      simp only [spanWhite, spanDigits] at h
      split at h
      · cases h
      · rename_i hds
        split at h
        · have hres := Option.some_inj.mp h
          subst hres
          obtain ⟨hdec, hw⟩ := sWord_sound hsw
          refine ⟨?_, hds, fun c hc => List.mem_takeWhile_imp hc, Or.inr ?_⟩
          · show s = (w ++ r1.takeWhile Char.isWhitespace ++
              (r1.dropWhile Char.isWhitespace).takeWhile Char.isDigit) ++
                (r1.dropWhile Char.isWhitespace).dropWhile Char.isDigit
            rw [hdec]
            conv_lhs => rw [← List.takeWhile_append_dropWhile Char.isWhitespace r1]
            rw [← List.takeWhile_append_dropWhile Char.isDigit
              (r1.dropWhile Char.isWhitespace)]
            simp [List.append_assoc]
          · exact ⟨w, _, rfl, fun c hc => List.mem_takeWhile_imp hc, hw⟩
        · cases h
    · cases h
  · cases h

theorem ep3_sound : matcherSound ep3 := by
  intro p s res h
  unfold ep3 at h
  split at h
  · split at h
    · rename_i w r1 hsw
      simp only [spanWhite, spanDigits] at h
      split at h
      · cases h
      · rename_i hds
        split at h
        · have hres := Option.some_inj.mp h
          subst hres
          obtain ⟨hdec, hw⟩ := litCI_sound hsw
          refine ⟨?_, hds, fun c hc => List.mem_takeWhile_imp hc, Or.inr ?_⟩
          · show s = (w ++ r1.takeWhile Char.isWhitespace ++
              (r1.dropWhile Char.isWhitespace).takeWhile Char.isDigit) ++
                (r1.dropWhile Char.isWhitespace).dropWhile Char.isDigit
            rw [hdec]
            conv_lhs => rw [← List.takeWhile_append_dropWhile Char.isWhitespace r1]
            rw [← List.takeWhile_append_dropWhile Char.isDigit
              (r1.dropWhile Char.isWhitespace)]
            simp [List.append_assoc]
          · refine ⟨w, _, rfl, fun c hc => List.mem_takeWhile_imp hc, ?_⟩
            simp [seasonWordsB, hw]
        · cases h
    · cases h
  · cases h

theorem ep4_sound : matcherSound ep4 := by
  intro p s res h
  unfold ep4 at h
  split at h
  · simp only [spanWhite, spanDigits] at h
    split at h
    · cases h
    · rename_i hds
      split at h
      · rename_i w r3 halt
        have hres := Option.some_inj.mp h
        subst hres
        obtain ⟨hdec, hw⟩ := tryLit_sound halt
        refine ⟨?_, hds, fun c hc => List.mem_takeWhile_imp hc, Or.inl ?_⟩
        · show s = (s.takeWhile Char.isDigit ++
            (s.dropWhile Char.isDigit).takeWhile Char.isWhitespace ++ w) ++ r3
          conv_lhs => rw [← List.takeWhile_append_dropWhile Char.isDigit s]
          conv_lhs => rw [← List.takeWhile_append_dropWhile Char.isWhitespace
            (s.dropWhile Char.isDigit)]
          rw [hdec]
          simp [List.append_assoc]
        · refine ⟨_, w, rfl, fun c hc => List.mem_takeWhile_imp hc, ?_⟩
          simp [seasonWordsA, hw]
      · cases h
  · cases h

theorem reSearch_sound (m : Option Char → Str → Option MRes)
    (hm : matcherSound m) :
    ∀ (s : Str) (prev : Option Char) (ds : Str), reSearch m prev s = some ds →
      ∃ pre res, s = pre ++ res.matched ++ res.rest ∧ res.digits = ds ∧
        res.digits ≠ [] ∧ (∀ c ∈ res.digits, c.isDigit = true) ∧
        (goodA res ∨ goodB res) := by
  intro s
  induction s with
  | nil =>
    intro prev ds h
    unfold reSearch at h
    split at h
    · rename_i res heq
      obtain ⟨hdec, hne, hdig, hg⟩ := hm prev [] res heq
      exact ⟨[], res, by simpa using hdec, Option.some_inj.mp h, hne, hdig, hg⟩
    · cases h
  | cons c rest ih =>
    intro prev ds h
    unfold reSearch at h
    split at h
    · rename_i res heq
      obtain ⟨hdec, hne, hdig, hg⟩ := hm prev (c :: rest) res heq
      exact ⟨[], res, by simpa using hdec, Option.some_inj.mp h, hne, hdig, hg⟩
    · obtain ⟨pre, res, hdec, hds, hne, hdig, hg⟩ := ih (some c) ds h
      exact ⟨c :: pre, res, by simp [hdec], hds, hne, hdig, hg⟩

theorem extMarker_of_decomp {tl pre : Str} {res : MRes}
    (hdec : tl = pre ++ res.matched ++ res.rest) (hne : res.digits ≠ [])
    (hdig : ∀ c ∈ res.digits, c.isDigit = true) (hg : goodA res ∨ goodB res) :
    extMarker tl (digitsToNat res.digits) := by
  rcases hg with ⟨sp, w, hms, hsp, hw⟩ | ⟨w, sp, hms, hsp, hw⟩
  · exact Or.inl ⟨pre, res.digits, sp, w, res.rest,
      by rw [hdec, hms]; simp [List.append_assoc], hne, hdig, rfl, hsp, hw⟩
  · exact Or.inr ⟨pre, w, sp, res.digits, res.rest,
      by rw [hdec, hms]; simp [List.append_assoc], hne, hdig, rfl, hsp, hw⟩

theorem tryPatterns_sound :
    ∀ (ms : List (Option Char → Str → Option MRes)),
      (∀ m ∈ ms, matcherSound m) →
      ∀ (tl : Str) (n : Nat), tryPatterns ms tl = some n →
        (1 ≤ n ∧ n ≤ 100) ∧ extMarker tl n := by
  intro ms
  induction ms with
  | nil => intro _ tl n h; cases h
  | cons m ms ih =>
    intro hall tl n h
    unfold tryPatterns at h
    split at h
    · rename_i ds hrs
      split at h
      · rename_i hrange
        have hn := Option.some_inj.mp h
        subst hn
        obtain ⟨pre, res, hdec, hds, hne, hdig, hg⟩ :=
          reSearch_sound m (hall m (by simp)) tl none ds hrs
        subst hds
        exact ⟨hrange, extMarker_of_decomp hdec hne hdig hg⟩
      · exact ih (fun m' hm' => hall m' (by simp [hm'])) tl n h
    · exact ih (fun m' hm' => hall m' (by simp [hm'])) tl n h

/-- Refutes C6's marker list / iff: `extract_season` returns 4 for
"movie 4 s" via the `\b(\d+)\s*(?:сезон|season|s)\b` pattern's bare `s`
alternative, yet none of the claim's five supported marker shapes
(`<N> сезон`, `<N> season`, `s<N>`, `season <N>`, `сезон <N>`) occurs in
the title for any N, so by the claim it should return nothing. -/
theorem c6_counterexample :
    extract_season_from_title ("movie 4 s".data) = some 4 ∧
      claimMarkerNums ("movie 4 s".data) = [] := by
  constructor
  · decide
  · decide

/-- C6 (amended).  Whenever `extract_season` returns `n`, then
`1 ≤ n ≤ 100` and the lower-cased title contains a season marker for
`n` from the extended shape list — a digit run valued `n` and one of
сезон/season/s, in either order, separated by an optional whitespace
run (the number-first `<N> s` shape is recognized by the code in
addition to the claim's list); out-of-range leftmost matches make the
code skip the whole pattern, so an in-range marker does not guarantee a
result. -/
theorem c6_season_sound :
    ∀ (t : Str) (n : Nat), extract_season_from_title t = some n →
      (1 ≤ n ∧ n ≤ 100) ∧ extMarker (pyLowerStr t) n := by
  intro t n h
  unfold extract_season_from_title at h
  by_cases ht : t = []
  · rw [if_pos ht] at h; cases h
  · rw [if_neg ht] at h
    refine tryPatterns_sound [ep1, ep2, ep3, ep4] ?_ (pyLowerStr t) n h
    intro m hm
    simp only [List.mem_cons, List.not_mem_nil, or_false] at hm
    rcases hm with rfl | rfl | rfl | rfl
    · exact ep1_sound
    · exact ep2_sound
    · exact ep3_sound
    · exact ep4_sound

theorem c6_witness :
    (1 ≤ 2 ∧ 2 ≤ 100) ∧ extMarker (pyLowerStr ("breaking bad s02".data)) 2 :=
  c6_season_sound ("breaking bad s02".data) 2 (by decide)
